import Mathlib

/-!
Shallow embedding of src/imageCompressor.ts (blinko-image-compressor).

JavaScript numbers are modelled as exact rationals; optional numeric fields
as Option ℚ with JS truthiness (undefined and 0 are falsy); optional boolean
fields as Option Bool (undefined is falsy).  File handles are reduced to
their observable byte size and declared MIME type; the external encoder
(browser-image-compression) is an oracle mapping an attempt index and an
encode request to either a codec error or a compressed byte size.
compressImage returns, alongside its outcome, the list of encode requests
it actually issued, so that claims about attempts can be stated.
-/

/-- CompressionSettings of imageCompressor.ts.  quality is required; the
other numeric and boolean fields are optional in the interface. -/
structure CompressionSettings where
  quality : ℚ
  useQuality : Option Bool
  maintainSize : Option Bool
  maxWidth : Option ℚ
  maxHeight : Option ℚ
  useScaling : Option Bool
  scalePercent : Option ℚ
  useSizeLimits : Option Bool
  enabled : Bool
deriving Repr

/-- An asset: byte size plus declared MIME type (File.size, File.type). -/
structure FileInfo where
  size : ℕ
  type : String
deriving Repr, DecidableEq

/-- CompressionResult of imageCompressor.ts; the originalFile/compressedFile
handles are dropped, keeping their observable sizes.  ratioVal is the
compressionRatio field of the source. -/
structure CompressionResult where
  originalSize : ℕ
  compressedSize : ℕ
  ratioVal : ℚ
deriving Repr, DecidableEq

/-- The options object passed to the imageCompression encoder.  The fields
that are compile-time constants in the source (maxSizeMB = 10,
useWebWorker = true, maxIteration = 10, exifOrientation = 1, onProgress)
are omitted. -/
structure EncodeOptions where
  initialQuality : ℚ
  maxWidthOrHeight : Option ℚ
  alwaysKeepResolution : Bool
  fileType : String
deriving Repr, DecidableEq

/-- Terminal states of one compressImage invocation: the not-eligible throw,
a codec error escaping from attempt #1, or a returned result. -/
inductive Outcome where
  | notEligible
  | codecError
  | done (r : CompressionResult)
deriving Repr, DecidableEq

/-- JS truthiness of an optional number: undefined and 0 are falsy. -/
def truthy (x : Option ℚ) : Bool :=
  decide (x.getD 0 ≠ 0)

/-- canCompress: enabled, and the declared type is in the fixed whitelist. -/
def canCompress (s : CompressionSettings) (f : FileInfo) : Bool :=
  s.enabled && (["image/jpeg", "image/png", "image/webp", "image/gif"].contains f.type)

/-- The compressionQuality local of compressImage: policy quality capped by
byte size (1 MiB and 500 KiB thresholds) and then by the PNG format cap. -/
def plannedQuality (s : CompressionSettings) (f : FileInfo) : ℚ :=
  let q0 := s.quality
  let q1 :=
    if 1024 * 1024 < f.size then min q0 (1/2)
    else if 500 * 1024 < f.size then min q0 (3/5)
    else q0
  if f.type = "image/png" then min q1 (1/2) else q1

/-- The percentage-scaling step of dimension planning (lines 152-161):
applied only when useScaling is set and scalePercent is truthy and < 100. -/
def scaledDims (s : CompressionSettings) (ow oh : ℚ) : ℚ × ℚ :=
  if s.useScaling.getD false ∧ truthy s.scalePercent ∧ s.scalePercent.getD 0 < 100 then
    ((⌊ow * (s.scalePercent.getD 0 / 100)⌋ : ℚ), (⌊oh * (s.scalePercent.getD 0 / 100)⌋ : ℚ))
  else (ow, oh)

/-- The target dimensions computed by compressImage (lines 148-182): the
scaling step followed, when useSizeLimits and both limits are truthy, by the
width-limit clamp and then the height-limit clamp on the updated values. -/
def targetDims (s : CompressionSettings) (ow oh : ℚ) : ℚ × ℚ :=
  let t0 := scaledDims s ow oh
  if s.useSizeLimits.getD false ∧ truthy s.maxWidth ∧ truthy s.maxHeight then
    let mw := s.maxWidth.getD 0
    let mh := s.maxHeight.getD 0
    let t1 := if t0.1 > mw then (mw, (⌊t0.2 * (mw / t0.1)⌋ : ℚ)) else t0
    let t2 := if t1.2 > mh then ((⌊t1.1 * (mh / t1.2)⌋ : ℚ), mh) else t1
    t2
  else t0

/-- The maxWidthOrHeight option of attempt #1 (lines 116-195): set only when
a geometry flag is on, the dimension probe did not throw (probe = none
models the catch path) and returned positive dimensions, and the computed
target differs from the original; the value is the larger target edge. -/
def buildMaxWOH (s : CompressionSettings) (probe : Option (ℚ × ℚ)) : Option ℚ :=
  if s.useScaling.getD false || s.useSizeLimits.getD false then
    match probe with
    | none => none
    | some (ow, oh) =>
      if 0 < ow ∧ 0 < oh then
        let t := targetDims s ow oh
        if t.1 ≠ ow ∨ t.2 ≠ oh then some (max t.1 t.2) else none
      else none
  else none

/-- The options object of attempt #1 (lines 104-113 plus the dimension
adjustment).  alwaysKeepResolution is initialised to
!useScaling && !useSizeLimits and is only overwritten with false when a
bound is set, which requires one of those flags, so the initial expression
is already its final value. -/
def buildOptions (s : CompressionSettings) (f : FileInfo) (cq : ℚ)
    (probe : Option (ℚ × ℚ)) : EncodeOptions :=
  { initialQuality := if s.useQuality ≠ some false then cq else 1
    maxWidthOrHeight := buildMaxWOH s probe
    alwaysKeepResolution := !(s.useScaling.getD false) && !(s.useSizeLimits.getD false)
    fileType := f.type }

/-- The forcedOptions object of the retry (lines 227-236): quality is
max(0.1, compressionQuality - 0.4) from the planned quality, and the bound
is 0.8 of the attempt-1 bound when that is truthy, else 0.8 of
max(maxWidth, maxHeight or 0) when settings.maxWidth is truthy, else unset. -/
def forcedOptions (s : CompressionSettings) (opts : EncodeOptions) (cq : ℚ) :
    EncodeOptions :=
  { opts with
    initialQuality := max (1/10) (cq - 2/5)
    maxWidthOrHeight :=
      if truthy opts.maxWidthOrHeight then
        some (⌊opts.maxWidthOrHeight.getD 0 * (4/5)⌋ : ℚ)
      else if truthy s.maxWidth then
        some (⌊max (s.maxWidth.getD 0) (s.maxHeight.getD 0) * (4/5)⌋ : ℚ)
      else none }

/-- A CompressionResult for the given file and compressed byte size. -/
def mkResult (f : FileInfo) (sz : ℕ) : CompressionResult :=
  { originalSize := f.size
    compressedSize := sz
    ratioVal := (sz : ℚ) / (f.size : ℚ) }

/-- compressImage: the eligibility gate, attempt #1 with the planned
options, the retry with forcedOptions when attempt #1 did not shrink the
file below 0.9 of its size, adoption of the retry only when it beats
attempt #1 by at least 10%, and swallowing of retry codec errors.  The
encoder oracle receives the attempt index and the request; the returned
list is the sequence of requests actually issued. -/
def compressImage (s : CompressionSettings) (f : FileInfo)
    (probe : Option (ℚ × ℚ))
    (encode : ℕ → EncodeOptions → Except Unit ℕ) :
    List EncodeOptions × Outcome :=
  if canCompress s f = true then
    let cq := plannedQuality s f
    let opts := buildOptions s f cq probe
    match encode 1 opts with
    | .error _ => ([opts], .codecError)
    | .ok size1 =>
      let result := mkResult f size1
      if (size1 : ℚ) ≥ (f.size : ℚ) * (9/10) then
        let fopts := forcedOptions s opts cq
        match encode 2 fopts with
        | .error _ => ([opts, fopts], .done result)
        | .ok size2 =>
          if (size2 : ℚ) < (size1 : ℚ) * (9/10) then
            ([opts, fopts], .done (mkResult f size2))
          else
            ([opts, fopts], .done result)
      else ([opts], .done result)
  else ([], .notEligible)

/-- Rendering of toFixed(2) followed by parseFloat: round half away from
zero to two decimals (the argument is nonnegative in every use), then drop
trailing zeros of the fractional part. -/
def toFixed2Trimmed (q : ℚ) : String :=
  let n : ℕ := (⌊q * 100 + 1/2⌋).toNat
  let ip := n / 100
  let fr := n % 100
  if fr = 0 then toString ip
  else if fr % 10 = 0 then toString ip ++ "." ++ toString (fr / 10)
  else if fr < 10 then toString ip ++ ".0" ++ toString fr
  else toString ip ++ "." ++ toString fr

/-- formatFileSize (lines 277-285).  Math.floor(Math.log bytes / Math.log
1024) equals Nat.log 1024 bytes on positive integers; the float rounding of
Math.log is not modelled.  Indexing past the end of the unit array yields
undefined in JS, which string concatenation renders as "undefined". -/
def formatFileSize (bytes : ℕ) : String :=
  if bytes = 0 then "0 Bytes"
  else
    let sizes := ["Bytes", "KB", "MB", "GB"]
    let i := Nat.log 1024 bytes
    toFixed2Trimmed ((bytes : ℚ) / 1024 ^ i) ++ " " ++ sizes.getD i "undefined"

/-- The width-limit clamp followed by the height-limit clamp on the updated
values, as the specification describes the size-limit step. -/
def widthFirstClamp (mw mh : ℚ) (t : ℚ × ℚ) : ℚ × ℚ :=
  let t1 := if t.1 > mw then (mw, (⌊t.2 * (mw / t.1)⌋ : ℚ)) else t
  if t1.2 > mh then ((⌊t1.1 * (mh / t1.2)⌋ : ℚ), mh) else t1

/-- Invariant carried through dimension planning: both targets are bounded
by the originals, and the pair never mixes a strictly positive component
with a strictly negative one. -/
def dimInv (ow oh : ℚ) (t : ℚ × ℚ) : Prop :=
  t.1 ≤ ow ∧ t.2 ≤ oh ∧ ((0 ≤ t.1 ∧ 0 ≤ t.2) ∨ (t.1 ≤ 0 ∧ t.2 ≤ 0))

/-- A 100-byte JPEG asset, used as a concrete input. -/
def fileJpeg100 : FileInfo := { size := 100, type := "image/jpeg" }

/-- Concrete policy: scaling and size limits switched off but maxWidth and
maxHeight still configured, as in the DEFAULT_SETTINGS of the source. -/
def settingsA : CompressionSettings :=
  { quality := 3/5, useQuality := some true, maintainSize := none,
    maxWidth := some 1920, maxHeight := some 1080,
    useScaling := some false, scalePercent := none,
    useSizeLimits := some false, enabled := true }

/-- Concrete policy: quality compression bypassed (useQuality = false). -/
def settingsB : CompressionSettings :=
  { quality := 9/10, useQuality := some false, maintainSize := none,
    maxWidth := none, maxHeight := none,
    useScaling := some false, scalePercent := none,
    useSizeLimits := some false, enabled := true }

/-- Concrete policy: plain enabled policy with no geometry options. -/
def settingsC : CompressionSettings :=
  { quality := 3/5, useQuality := some true, maintainSize := none,
    maxWidth := none, maxHeight := none,
    useScaling := none, scalePercent := none,
    useSizeLimits := none, enabled := true }

/-- Concrete policy: 50% scaling combined with 800x600 size limits. -/
def settingsD : CompressionSettings :=
  { quality := 3/5, useQuality := some true, maintainSize := none,
    maxWidth := some 800, maxHeight := some 600,
    useScaling := some true, scalePercent := some 50,
    useSizeLimits := some true, enabled := true }

/-- Concrete policy: size limits 800x600 only, as in the probe-failure
scenario of the specification. -/
def settingsE : CompressionSettings :=
  { quality := 3/5, useQuality := some true, maintainSize := none,
    maxWidth := some 800, maxHeight := some 600,
    useScaling := some false, scalePercent := none,
    useSizeLimits := some true, enabled := true }

lemma compressImage_trace (s : CompressionSettings) (f : FileInfo)
    (probe : Option (ℚ × ℚ)) (encode : ℕ → EncodeOptions → Except Unit ℕ)
    (h : canCompress s f = true) :
    (compressImage s f probe encode).1 =
      buildOptions s f (plannedQuality s f) probe ::
        (match encode 1 (buildOptions s f (plannedQuality s f) probe) with
         | .error _ => []
         | .ok size1 =>
           if (size1 : ℚ) ≥ (f.size : ℚ) * (9/10) then
             [forcedOptions s (buildOptions s f (plannedQuality s f) probe)
               (plannedQuality s f)]
           else []) := by
  rcases henc : encode 1 (buildOptions s f (plannedQuality s f) probe) with e | n
  · simp [compressImage, h, henc]
  · rcases henc2 : encode 2 (forcedOptions s
        (buildOptions s f (plannedQuality s f) probe) (plannedQuality s f)) with e2 | n2
    · simp only [compressImage, h, if_true, henc, henc2]
      split_ifs <;> simp
    · simp only [compressImage, h, if_true, henc, henc2]
      split_ifs <;> simp

lemma canCompress_false (s : CompressionSettings) (f : FileInfo)
    (h : ¬ canCompress s f = true) : canCompress s f = false := by
  revert h
  cases canCompress s f <;> simp

lemma compressImage_done_shape (s : CompressionSettings) (f : FileInfo)
    (probe : Option (ℚ × ℚ)) (encode : ℕ → EncodeOptions → Except Unit ℕ)
    (r : CompressionResult)
    (h : (compressImage s f probe encode).2 = Outcome.done r) :
    ∃ sz : ℕ, r = mkResult f sz := by
  by_cases hc : canCompress s f = true
  · rcases henc : encode 1 (buildOptions s f (plannedQuality s f) probe) with e | n
    · simp [compressImage, hc, henc] at h
    · rcases henc2 : encode 2 (forcedOptions s
          (buildOptions s f (plannedQuality s f) probe) (plannedQuality s f)) with e2 | n2
      · simp [compressImage, hc, henc, henc2] at h
        split_ifs at h <;> exact ⟨n, (Outcome.done.inj h).symm⟩
      · simp [compressImage, hc, henc, henc2] at h
        split_ifs at h
        · exact ⟨n2, (Outcome.done.inj h).symm⟩
        · exact ⟨n, (Outcome.done.inj h).symm⟩
        · exact ⟨n, (Outcome.done.inj h).symm⟩
  · simp [compressImage, canCompress_false s f hc] at h

/-- C5: compressImage throws the not-eligible error without invoking the
encoder exactly when policy.enabled is false or the declared MIME type is
outside the jpeg/png/webp/gif whitelist, and canCompress is exactly that
predicate. -/
theorem c5_eligibility_gate (s : CompressionSettings) (f : FileInfo)
    (probe : Option (ℚ × ℚ)) (encode : ℕ → EncodeOptions → Except Unit ℕ) :
    canCompress s f =
      (s.enabled && (["image/jpeg", "image/png", "image/webp", "image/gif"].contains f.type)) ∧
    (((compressImage s f probe encode).1 = [] ∧
        (compressImage s f probe encode).2 = Outcome.notEligible) ↔
      canCompress s f = false) := by
  refine ⟨rfl, ?_⟩
  by_cases h : canCompress s f = true
  · rw [compressImage_trace s f probe encode h]
    simp [h]
  · simp [compressImage, canCompress_false s f h]

/-- C1 (amended): with useScaling and useSizeLimits both unset or false, the
first encode request never carries a longest-edge bound, and when
additionally settings.maxWidth is unset or zero, no issued request carries
one.  The original claim fails when maxWidth is configured and nonzero: the
retry request then carries a bound even with both flags off (see the
counterexample). -/
theorem c1_no_resize_amended (s : CompressionSettings) (f : FileInfo)
    (probe : Option (ℚ × ℚ)) (encode : ℕ → EncodeOptions → Except Unit ℕ)
    (h1 : s.useScaling.getD false = false) (h2 : s.useSizeLimits.getD false = false) :
    ((compressImage s f probe encode).1.map EncodeOptions.maxWidthOrHeight).head?.getD none
        = none ∧
    (truthy s.maxWidth = false →
      ((compressImage s f probe encode).1.map EncodeOptions.maxWidthOrHeight).all
          Option.isNone = true) := by
  have hb : buildMaxWOH s probe = none := by
    simp [buildMaxWOH, h1, h2]
  by_cases h : canCompress s f = true
  · rw [compressImage_trace s f probe encode h]
    constructor
    · simp [buildOptions, hb]
    · intro hm
      have hm' : s.maxWidth.getD 0 = 0 := by simpa [truthy] using hm
      rcases encode 1 (buildOptions s f (plannedQuality s f) probe) with e | n
      · simp [buildOptions, hb]
      · dsimp only
        split_ifs <;> simp [forcedOptions, buildOptions, hb, truthy, hm']
  · simp [compressImage, canCompress_false s f h]

/-- C1 counterexample: with useScaling and useSizeLimits both false but
maxWidth configured (the DEFAULT_SETTINGS shape), the retry encode request
carries the longest-edge bound floor(1920 * 0.8) = 1536, contradicting the
claim that neither attempt carries a bound regardless of the configured
maxWidth/maxHeight. -/
theorem c1_counterexample :
    ((compressImage settingsA fileJpeg100 none (fun _ _ => Except.ok 100)).1.map
      EncodeOptions.maxWidthOrHeight) = [none, some 1536] ∧
    settingsA.useScaling = some false ∧ settingsA.useSizeLimits = some false := by
  refine ⟨?_, rfl, rfl⟩
  simp only [compressImage, canCompress, settingsA, fileJpeg100, plannedQuality,
    buildOptions, buildMaxWOH, forcedOptions, truthy]
  norm_num

theorem c1_witness :
    (settingsB.useScaling.getD false = false ∧
      settingsB.useSizeLimits.getD false = false) ∧
    ((compressImage settingsB fileJpeg100 none (fun _ _ => Except.ok 100)).1.map
        EncodeOptions.maxWidthOrHeight).head?.getD none = none ∧
    (truthy settingsB.maxWidth = false →
      ((compressImage settingsB fileJpeg100 none (fun _ _ => Except.ok 100)).1.map
          EncodeOptions.maxWidthOrHeight).all Option.isNone = true) :=
  ⟨⟨rfl, rfl⟩,
    c1_no_resize_amended settingsB fileJpeg100 none (fun _ _ => Except.ok 100) rfl rfl⟩

/-- C2 (amended): whenever the retry is performed, its request quality is
max(0.1, planned - 0.4) where planned is the capped planned quality (the
compressionQuality local, which is also attempt #1's quality unless
useQuality is false, in which case attempt #1 sends 1 instead), and its
bound is floor(bound1 * 0.8) when attempt #1's bound is set and nonzero,
else floor(max(maxWidth, maxHeight-or-0) * 0.8) when settings.maxWidth is
set and nonzero regardless of useSizeLimits, else unset.  The original
claim fails because it takes quality1 to be the effective attempt #1
quality and conditions the fallback bound on useSizeLimits (see the
counterexample). -/
theorem c2_retry_request_amended (s : CompressionSettings) (f : FileInfo)
    (probe : Option (ℚ × ℚ)) (encode : ℕ → EncodeOptions → Except Unit ℕ)
    (o1 o2 : EncodeOptions)
    (h : (compressImage s f probe encode).1 = [o1, o2]) :
    o1 = buildOptions s f (plannedQuality s f) probe ∧
    o2.initialQuality = max (1/10) (plannedQuality s f - 2/5) ∧
    o2.maxWidthOrHeight =
      (if truthy o1.maxWidthOrHeight then
        some (⌊o1.maxWidthOrHeight.getD 0 * (4/5)⌋ : ℚ)
      else if truthy s.maxWidth then
        some (⌊max (s.maxWidth.getD 0) (s.maxHeight.getD 0) * (4/5)⌋ : ℚ)
      else none) := by
  by_cases hc : canCompress s f = true
  · rw [compressImage_trace s f probe encode hc] at h
    rcases henc : encode 1 (buildOptions s f (plannedQuality s f) probe) with e | n
    · rw [henc] at h
      simp at h
    · rw [henc] at h
      dsimp only at h
      by_cases hge : (n : ℚ) ≥ (f.size : ℚ) * (9/10)
      · rw [if_pos hge] at h
        simp only [List.cons.injEq, and_true] at h
        obtain ⟨ho1, ho2⟩ := h
        subst ho1
        subst ho2
        exact ⟨rfl, rfl, rfl⟩
      · rw [if_neg hge] at h
        simp at h
  · simp [compressImage, canCompress_false s f hc] at h

/-- C2 counterexample: with useQuality = false the effective attempt #1
quality is 1, yet the retry quality is computed from the planned quality
0.9, giving 0.5 instead of the claimed max(0.1, 1 - 0.4) = 0.6. -/
theorem c2_counterexample :
    ((compressImage settingsB fileJpeg100 none (fun _ _ => Except.ok 100)).1.map
      EncodeOptions.initialQuality) = [1, 1/2] ∧
    (1/2 : ℚ) ≠ max (1/10) (1 - 2/5) := by
  have hjp : ¬ ("image/jpeg" = "image/png") := by decide
  constructor
  · simp only [compressImage, canCompress, settingsB, fileJpeg100, plannedQuality,
      buildOptions, buildMaxWOH, forcedOptions, truthy]
    norm_num [hjp]
  · norm_num

theorem c2_witness :
    (compressImage settingsC fileJpeg100 none (fun _ _ => Except.ok 100)).1 =
      [{ initialQuality := 3/5, maxWidthOrHeight := none,
         alwaysKeepResolution := true, fileType := "image/jpeg" },
       { initialQuality := 1/5, maxWidthOrHeight := none,
         alwaysKeepResolution := true, fileType := "image/jpeg" }] ∧
    ({ initialQuality := 3/5, maxWidthOrHeight := none,
       alwaysKeepResolution := true, fileType := "image/jpeg" } : EncodeOptions) =
      buildOptions settingsC fileJpeg100 (plannedQuality settingsC fileJpeg100) none ∧
    EncodeOptions.initialQuality
        { initialQuality := 1/5, maxWidthOrHeight := none,
          alwaysKeepResolution := true, fileType := "image/jpeg" } =
      max (1/10) (plannedQuality settingsC fileJpeg100 - 2/5) ∧
    EncodeOptions.maxWidthOrHeight
        { initialQuality := 1/5, maxWidthOrHeight := none,
          alwaysKeepResolution := true, fileType := "image/jpeg" } =
      (if truthy (EncodeOptions.maxWidthOrHeight
          { initialQuality := 3/5, maxWidthOrHeight := none,
            alwaysKeepResolution := true, fileType := "image/jpeg" }) then
        some (⌊(EncodeOptions.maxWidthOrHeight
            { initialQuality := 3/5, maxWidthOrHeight := none,
              alwaysKeepResolution := true, fileType := "image/jpeg" }).getD 0 * (4/5)⌋ : ℚ)
      else if truthy settingsC.maxWidth then
        some (⌊max (settingsC.maxWidth.getD 0) (settingsC.maxHeight.getD 0) * (4/5)⌋ : ℚ)
      else none) := by
  have hE : (compressImage settingsC fileJpeg100 none (fun _ _ => Except.ok 100)).1 =
      [{ initialQuality := 3/5, maxWidthOrHeight := none,
         alwaysKeepResolution := true, fileType := "image/jpeg" },
       { initialQuality := 1/5, maxWidthOrHeight := none,
         alwaysKeepResolution := true, fileType := "image/jpeg" }] := by
    have hjp : ¬ ("image/jpeg" = "image/png") := by decide
    simp only [compressImage, canCompress, settingsC, fileJpeg100, plannedQuality,
      buildOptions, buildMaxWOH, forcedOptions, truthy]
    norm_num [hjp]
  exact ⟨hE, c2_retry_request_amended settingsC fileJpeg100 none
    (fun _ _ => Except.ok 100) _ _ hE⟩

/-- C4 (amended): every Done result reports originalSize equal to the input
byte size and compressionRatio equal to compressedSize / originalSize, and
that ratio is strictly positive whenever the adopted encoder output and the
original file are nonempty.  The original claim fails when the encoder
returns an empty output: the ratio is then 0 (see the counterexample). -/
theorem c4_ratio_amended (s : CompressionSettings) (f : FileInfo)
    (probe : Option (ℚ × ℚ)) (encode : ℕ → EncodeOptions → Except Unit ℕ)
    (r : CompressionResult)
    (h : (compressImage s f probe encode).2 = Outcome.done r) :
    r.originalSize = f.size ∧
    r.ratioVal = (r.compressedSize : ℚ) / (r.originalSize : ℚ) ∧
    (0 < r.compressedSize → 0 < r.originalSize → 0 < r.ratioVal) := by
  obtain ⟨sz, rfl⟩ := compressImage_done_shape s f probe encode r h
  refine ⟨rfl, rfl, ?_⟩
  intro hsz hor
  have h1 : (0 : ℚ) < (sz : ℚ) := by exact_mod_cast hsz
  have h2 : (0 : ℚ) < (f.size : ℚ) := by exact_mod_cast hor
  exact div_pos h1 h2

/-- C4 counterexample: an encoder returning an empty output yields a Done
result whose compressionRatio is 0, not strictly positive. -/
theorem c4_counterexample :
    (compressImage settingsC fileJpeg100 none (fun _ _ => Except.ok 0)).2 =
      Outcome.done { originalSize := 100, compressedSize := 0, ratioVal := 0 } ∧
    ¬ ((0 : ℚ) > 0) := by
  constructor
  · simp only [compressImage, canCompress, settingsC, fileJpeg100, plannedQuality,
      buildOptions, buildMaxWOH, forcedOptions, mkResult, truthy]
    norm_num
  · norm_num

theorem c4_witness :
    (compressImage settingsC fileJpeg100 none (fun _ _ => Except.ok 50)).2 =
      Outcome.done { originalSize := 100, compressedSize := 50, ratioVal := 1/2 } ∧
    ({ originalSize := 100, compressedSize := 50,
        ratioVal := 1/2 } : CompressionResult).originalSize = fileJpeg100.size ∧
    ({ originalSize := 100, compressedSize := 50,
        ratioVal := 1/2 } : CompressionResult).ratioVal =
      ((50 : ℕ) : ℚ) / ((100 : ℕ) : ℚ) ∧
    (0 < (50 : ℕ) → 0 < (100 : ℕ) →
      0 < ({ originalSize := 100, compressedSize := 50,
              ratioVal := 1/2 } : CompressionResult).ratioVal) := by
  have hE : (compressImage settingsC fileJpeg100 none (fun _ _ => Except.ok 50)).2 =
      Outcome.done { originalSize := 100, compressedSize := 50, ratioVal := 1/2 } := by
    simp only [compressImage, canCompress, settingsC, fileJpeg100, plannedQuality,
      buildOptions, buildMaxWOH, forcedOptions, mkResult, truthy]
    norm_num
  have hmain := c4_ratio_amended settingsC fileJpeg100 none (fun _ _ => Except.ok 50)
    { originalSize := 100, compressedSize := 50, ratioVal := 1/2 } hE
  exact ⟨hE, hmain.1, hmain.2.1, fun _ _ => hmain.2.2 (by norm_num) (by norm_num)⟩

lemma plannedQuality_def (s : CompressionSettings) (f : FileInfo) :
    plannedQuality s f =
      (if f.type = "image/png" then
        min (if 1024 * 1024 < f.size then min s.quality (1/2)
             else if 500 * 1024 < f.size then min s.quality (3/5)
             else s.quality) (1/2)
      else
        (if 1024 * 1024 < f.size then min s.quality (1/2)
         else if 500 * 1024 < f.size then min s.quality (3/5)
         else s.quality)) := rfl

/-- C3: for every eligible asset, a codec error in attempt #1 is propagated
as the only failing terminal outcome; the retry is performed iff
compressedSize1 >= originalSize * 0.9; the retry result is adopted iff the
retry returned normally and compressedSize2 < compressedSize1 * 0.9, and in
every other case, including a codec error thrown during the retry, attempt
#1's result is returned unchanged. -/
theorem c3_retry_policy (s : CompressionSettings) (f : FileInfo)
    (probe : Option (ℚ × ℚ)) (sz1 sz2 : ℕ)
    (h : canCompress s f = true) :
    (compressImage s f probe
        (fun n _ => if n = 1 then Except.error () else Except.ok sz2)).2 =
      Outcome.codecError ∧
    ((compressImage s f probe
        (fun n _ => Except.ok (if n = 1 then sz1 else sz2))).1.length = 2 ↔
      (sz1 : ℚ) ≥ (f.size : ℚ) * (9/10)) ∧
    (compressImage s f probe
        (fun n _ => Except.ok (if n = 1 then sz1 else sz2))).2 =
      Outcome.done
        (if (sz1 : ℚ) ≥ (f.size : ℚ) * (9/10) ∧ (sz2 : ℚ) < (sz1 : ℚ) * (9/10) then
          mkResult f sz2
        else mkResult f sz1) ∧
    (compressImage s f probe
        (fun n _ => if n = 1 then Except.ok sz1 else Except.error ())).2 =
      Outcome.done (mkResult f sz1) := by
  refine ⟨?_, ?_, ?_, ?_⟩
  · simp [compressImage, h]
  · by_cases hge : (sz1 : ℚ) ≥ (f.size : ℚ) * (9/10)
    · simp only [compressImage, h, if_true, hge]
      simp [hge]
      split_ifs <;> simp
    · simp [compressImage, h, hge]
  · by_cases hge : (sz1 : ℚ) ≥ (f.size : ℚ) * (9/10)
    · by_cases hlt : (sz2 : ℚ) < (sz1 : ℚ) * (9/10)
      · simp [compressImage, h, hge, hlt]
      · simp [compressImage, h, hge, hlt]
    · simp [compressImage, h, hge]
  · by_cases hge : (sz1 : ℚ) ≥ (f.size : ℚ) * (9/10)
    · simp [compressImage, h, hge]
    · simp [compressImage, h, hge]

theorem c3_witness :
    canCompress settingsC fileJpeg100 = true ∧
    ((compressImage settingsC fileJpeg100 none
        (fun n _ => if n = 1 then Except.error () else Except.ok 50)).2 =
      Outcome.codecError ∧
    ((compressImage settingsC fileJpeg100 none
        (fun n _ => Except.ok (if n = 1 then 95 else 50))).1.length = 2 ↔
      ((95 : ℕ) : ℚ) ≥ ((fileJpeg100.size : ℕ) : ℚ) * (9/10)) ∧
    (compressImage settingsC fileJpeg100 none
        (fun n _ => Except.ok (if n = 1 then 95 else 50))).2 =
      Outcome.done
        (if ((95 : ℕ) : ℚ) ≥ ((fileJpeg100.size : ℕ) : ℚ) * (9/10) ∧
            ((50 : ℕ) : ℚ) < ((95 : ℕ) : ℚ) * (9/10) then
          mkResult fileJpeg100 50
        else mkResult fileJpeg100 95) ∧
    (compressImage settingsC fileJpeg100 none
        (fun n _ => if n = 1 then Except.ok 95 else Except.error ())).2 =
      Outcome.done (mkResult fileJpeg100 95)) :=
  ⟨by decide, c3_retry_policy settingsC fileJpeg100 none 95 50 (by decide)⟩

/-- C6: the planned quality starts at policy.quality and is only lowered by
the 1 MiB, 500 KiB and PNG caps, never raised; attempt #1's request carries
the planned quality when useQuality is not false and 1 when it is false. -/
theorem c6_quality_planning (s : CompressionSettings) (f : FileInfo)
    (probe : Option (ℚ × ℚ)) (encode : ℕ → EncodeOptions → Except Unit ℕ)
    (h : canCompress s f = true) :
    plannedQuality s f ≤ s.quality ∧
    (1024 * 1024 < f.size → plannedQuality s f ≤ 1/2) ∧
    (f.size ≤ 1024 * 1024 → 500 * 1024 < f.size → plannedQuality s f ≤ 3/5) ∧
    (f.type = "image/png" → plannedQuality s f ≤ 1/2) ∧
    (compressImage s f probe encode).1.head? =
      some (buildOptions s f (plannedQuality s f) probe) ∧
    (buildOptions s f (plannedQuality s f) probe).initialQuality =
      (if s.useQuality ≠ some false then plannedQuality s f else 1) := by
  refine ⟨?_, ?_, ?_, ?_, ?_, rfl⟩
  · rw [plannedQuality_def]
    split_ifs <;>
      first
        | exact le_refl _
        | exact min_le_left _ _
        | exact le_trans (min_le_left _ _) (min_le_left _ _)
  · intro hsz
    rw [plannedQuality_def, if_pos hsz]
    split_ifs
    · exact min_le_right _ _
    · exact min_le_right _ _
  · intro hle hsz
    rw [plannedQuality_def, if_neg (not_lt.mpr hle), if_pos hsz]
    split_ifs
    · exact le_trans (min_le_left _ _) (min_le_right _ _)
    · exact min_le_right _ _
  · intro hpng
    rw [plannedQuality_def, if_pos hpng]
    exact min_le_right _ _
  · rw [compressImage_trace s f probe encode h]
    simp

theorem c6_witness :
    canCompress settingsC fileJpeg100 = true ∧
    (plannedQuality settingsC fileJpeg100 ≤ settingsC.quality ∧
    (1024 * 1024 < fileJpeg100.size → plannedQuality settingsC fileJpeg100 ≤ 1/2) ∧
    (fileJpeg100.size ≤ 1024 * 1024 → 500 * 1024 < fileJpeg100.size →
      plannedQuality settingsC fileJpeg100 ≤ 3/5) ∧
    (fileJpeg100.type = "image/png" → plannedQuality settingsC fileJpeg100 ≤ 1/2) ∧
    (compressImage settingsC fileJpeg100 none (fun _ _ => Except.ok 50)).1.head? =
      some (buildOptions settingsC fileJpeg100
        (plannedQuality settingsC fileJpeg100) none) ∧
    (buildOptions settingsC fileJpeg100
        (plannedQuality settingsC fileJpeg100) none).initialQuality =
      (if settingsC.useQuality ≠ some false
        then plannedQuality settingsC fileJpeg100 else 1)) :=
  ⟨by decide,
    c6_quality_planning settingsC fileJpeg100 none (fun _ _ => Except.ok 50) (by decide)⟩

/-- C9: when a geometry flag is set but the probe yields the failure
sentinel (or any non-positive dimension), dimension planning is skipped  -
attempt #1's request carries no resize bound  -  and compression still
proceeds to the first encoder call. -/
theorem c9_probe_failure (s : CompressionSettings) (f : FileInfo)
    (encode : ℕ → EncodeOptions → Except Unit ℕ) (w h : ℚ)
    (hc : canCompress s f = true)
    (hflag : (s.useScaling.getD false || s.useSizeLimits.getD false) = true)
    (hbad : w ≤ 0 ∨ h ≤ 0) :
    ((compressImage s f (some (w, h)) encode).1.map
      EncodeOptions.maxWidthOrHeight).head? = some none := by
  have hno : ¬ (0 < w ∧ 0 < h) := by
    rcases hbad with hb1 | hb1 <;> intro hcontra
    · exact absurd hcontra.1 (not_lt.mpr hb1)
    · exact absurd hcontra.2 (not_lt.mpr hb1)
  have hb : buildMaxWOH s (some (w, h)) = none := by
    simp [buildMaxWOH, hflag, hno]
  rw [compressImage_trace s f (some (w, h)) encode hc]
  rcases encode 1 (buildOptions s f (plannedQuality s f) (some (w, h))) with e | n <;>
    simp [buildOptions, hb]

theorem c9_witness :
    canCompress settingsE fileJpeg100 = true ∧
    (settingsE.useScaling.getD false || settingsE.useSizeLimits.getD false) = true ∧
    ((0 : ℚ) ≤ 0 ∨ (0 : ℚ) ≤ 0) ∧
    ((compressImage settingsE fileJpeg100 (some (0, 0))
        (fun _ _ => Except.ok 50)).1.map EncodeOptions.maxWidthOrHeight).head? =
      some none :=
  ⟨by decide, rfl, Or.inl le_rfl,
    c9_probe_failure settingsE fileJpeg100 (fun _ _ => Except.ok 50) 0 0
      (by decide) rfl (Or.inl le_rfl)⟩

lemma dimInv_scaled (s : CompressionSettings) (ow oh : ℚ) (hw : 0 < ow) (hh : 0 < oh) :
    dimInv ow oh (scaledDims s ow oh) := by
  unfold scaledDims
  split_ifs with hcond
  · obtain ⟨-, -, hlt⟩ := hcond
    have hr : s.scalePercent.getD 0 / 100 ≤ 1 := by
      rw [div_le_one (by norm_num : (0 : ℚ) < 100)]
      linarith
    refine ⟨?_, ?_, ?_⟩
    · calc ((⌊ow * (s.scalePercent.getD 0 / 100)⌋ : ℚ))
          ≤ ow * (s.scalePercent.getD 0 / 100) := Int.floor_le _
        _ ≤ ow := mul_le_of_le_one_right hw.le hr
    · calc ((⌊oh * (s.scalePercent.getD 0 / 100)⌋ : ℚ))
          ≤ oh * (s.scalePercent.getD 0 / 100) := Int.floor_le _
        _ ≤ oh := mul_le_of_le_one_right hh.le hr
    · rcases le_or_lt (s.scalePercent.getD 0) 0 with hp0 | hp0
      · right
        have hdiv : s.scalePercent.getD 0 / 100 ≤ 0 :=
          div_nonpos_iff.mpr (Or.inr ⟨hp0, by norm_num⟩)
        constructor
        · exact le_trans (Int.floor_le _)
            (mul_nonpos_iff.mpr (Or.inl ⟨hw.le, hdiv⟩))
        · exact le_trans (Int.floor_le _)
            (mul_nonpos_iff.mpr (Or.inl ⟨hh.le, hdiv⟩))
      · left
        have hdiv : 0 ≤ s.scalePercent.getD 0 / 100 :=
          div_nonneg hp0.le (by norm_num)
        constructor
        · exact Int.cast_nonneg.mpr (Int.floor_nonneg.mpr (mul_nonneg hw.le hdiv))
        · exact Int.cast_nonneg.mpr (Int.floor_nonneg.mpr (mul_nonneg hh.le hdiv))
  · exact ⟨le_refl _, le_refl _, Or.inl ⟨hw.le, hh.le⟩⟩

lemma dimInv_clampW (ow oh mw : ℚ) (t : ℚ × ℚ) (hw : 0 < ow) (hh : 0 < oh)
    (ht : dimInv ow oh t) :
    dimInv ow oh (if t.1 > mw then (mw, (⌊t.2 * (mw / t.1)⌋ : ℚ)) else t) := by
  obtain ⟨h1, h2, hc⟩ := ht
  split_ifs with hgt
  · have key : (⌊t.2 * (mw / t.1)⌋ : ℚ) ≤ oh ∧
        ((0 ≤ mw ∧ 0 ≤ ((⌊t.2 * (mw / t.1)⌋ : ℚ))) ∨
          (mw ≤ 0 ∧ ((⌊t.2 * (mw / t.1)⌋ : ℚ)) ≤ 0)) := by
      rcases hc with ⟨ha, hb⟩ | ⟨ha, hb⟩
      · rcases eq_or_lt_of_le ha with h0 | h0
        · have hmw : mw < 0 := by rw [← h0] at hgt; exact hgt
          have hz : mw / t.1 = 0 := by rw [← h0, div_zero]
          rw [hz, mul_zero]
          exact ⟨by simpa using hh.le, Or.inr ⟨hmw.le, by simp⟩⟩
        · have hr1 : mw / t.1 < 1 := (div_lt_one h0).mpr hgt
          constructor
          · calc ((⌊t.2 * (mw / t.1)⌋ : ℚ)) ≤ t.2 * (mw / t.1) := Int.floor_le _
              _ ≤ t.2 := mul_le_of_le_one_right hb hr1.le
              _ ≤ oh := h2
          · rcases le_or_lt 0 mw with hmw | hmw
            · exact Or.inl ⟨hmw, Int.cast_nonneg.mpr (Int.floor_nonneg.mpr
                (mul_nonneg hb (div_nonneg hmw h0.le)))⟩
            · exact Or.inr ⟨hmw.le, le_trans (Int.floor_le _)
                (mul_nonpos_iff.mpr (Or.inl ⟨hb, (div_neg_of_neg_of_pos hmw h0).le⟩))⟩
      · have hmw : mw < 0 := lt_of_lt_of_le hgt ha
        rcases eq_or_lt_of_le ha with h0 | h0
        · have hz : mw / t.1 = 0 := by rw [h0, div_zero]
          rw [hz, mul_zero]
          exact ⟨by simpa using hh.le, Or.inr ⟨hmw.le, by simp⟩⟩
        · have hr : 0 ≤ mw / t.1 := (div_pos_iff.mpr (Or.inr ⟨hmw, h0⟩)).le
          have hle : t.2 * (mw / t.1) ≤ 0 := mul_nonpos_iff.mpr (Or.inr ⟨hb, hr⟩)
          exact ⟨le_trans (le_trans (Int.floor_le _) hle) hh.le,
            Or.inr ⟨hmw.le, le_trans (Int.floor_le _) hle⟩⟩
    exact ⟨by linarith, key.1, key.2⟩
  · exact ⟨h1, h2, hc⟩

lemma dimInv_clampH (ow oh mh : ℚ) (t : ℚ × ℚ) (hw : 0 < ow) (hh : 0 < oh)
    (ht : dimInv ow oh t) :
    dimInv ow oh (if t.2 > mh then ((⌊t.1 * (mh / t.2)⌋ : ℚ), mh) else t) := by
  obtain ⟨h1, h2, hc⟩ := ht
  split_ifs with hgt
  · have key : (⌊t.1 * (mh / t.2)⌋ : ℚ) ≤ ow ∧
        ((0 ≤ ((⌊t.1 * (mh / t.2)⌋ : ℚ)) ∧ 0 ≤ mh) ∨
          (((⌊t.1 * (mh / t.2)⌋ : ℚ)) ≤ 0 ∧ mh ≤ 0)) := by
      rcases hc with ⟨ha, hb⟩ | ⟨ha, hb⟩
      · rcases eq_or_lt_of_le hb with h0 | h0
        · have hmh : mh < 0 := by rw [← h0] at hgt; exact hgt
          have hz : mh / t.2 = 0 := by rw [← h0, div_zero]
          rw [hz, mul_zero]
          exact ⟨by simpa using hw.le, Or.inr ⟨by simp, hmh.le⟩⟩
        · have hr1 : mh / t.2 < 1 := (div_lt_one h0).mpr hgt
          constructor
          · calc ((⌊t.1 * (mh / t.2)⌋ : ℚ)) ≤ t.1 * (mh / t.2) := Int.floor_le _
              _ ≤ t.1 := mul_le_of_le_one_right ha hr1.le
              _ ≤ ow := h1
          · rcases le_or_lt 0 mh with hmh | hmh
            · exact Or.inl ⟨Int.cast_nonneg.mpr (Int.floor_nonneg.mpr
                (mul_nonneg ha (div_nonneg hmh h0.le))), hmh⟩
            · exact Or.inr ⟨le_trans (Int.floor_le _)
                (mul_nonpos_iff.mpr (Or.inl ⟨ha, (div_neg_of_neg_of_pos hmh h0).le⟩)),
                hmh.le⟩
      · have hmh : mh < 0 := lt_of_lt_of_le hgt hb
        rcases eq_or_lt_of_le hb with h0 | h0
        · have hz : mh / t.2 = 0 := by rw [h0, div_zero]
          rw [hz, mul_zero]
          exact ⟨by simpa using hw.le, Or.inr ⟨by simp, hmh.le⟩⟩
        · have hr : 0 ≤ mh / t.2 := (div_pos_iff.mpr (Or.inr ⟨hmh, h0⟩)).le
          have hle : t.1 * (mh / t.2) ≤ 0 := mul_nonpos_iff.mpr (Or.inr ⟨ha, hr⟩)
          exact ⟨le_trans (le_trans (Int.floor_le _) hle) hw.le,
            Or.inr ⟨le_trans (Int.floor_le _) hle, hmh.le⟩⟩
    exact ⟨key.1, by linarith, key.2⟩
  · exact ⟨h1, h2, hc⟩

lemma targetDims_dimInv (s : CompressionSettings) (ow oh : ℚ)
    (hw : 0 < ow) (hh : 0 < oh) :
    dimInv ow oh (targetDims s ow oh) := by
  have h0 : dimInv ow oh (scaledDims s ow oh) := dimInv_scaled s ow oh hw hh
  simp only [targetDims]
  by_cases hcond : (s.useSizeLimits.getD false : Prop) ∧
      (truthy s.maxWidth : Prop) ∧ (truthy s.maxHeight : Prop)
  · rw [if_pos hcond]
    exact dimInv_clampH ow oh (s.maxHeight.getD 0) _ hw hh
      (dimInv_clampW ow oh (s.maxWidth.getD 0) _ hw hh h0)
  · rw [if_neg hcond]
    exact h0

/-- C7: for positive probed dimensions, dimension planning is monotone
non-increasing in every branch: targetWidth never exceeds the original
width, targetHeight never exceeds the original height, and any longest-edge
bound set for attempt #1 is at most max(original.width, original.height). -/
theorem c7_dims_monotone (s : CompressionSettings) (ow oh : ℚ)
    (hw : 0 < ow) (hh : 0 < oh) :
    (targetDims s ow oh).1 ≤ ow ∧ (targetDims s ow oh).2 ≤ oh ∧
    (buildMaxWOH s (some (ow, oh))).getD (max ow oh) ≤ max ow oh := by
  obtain ⟨h1, h2, -⟩ := targetDims_dimInv s ow oh hw hh
  refine ⟨h1, h2, ?_⟩
  by_cases hflag : (s.useScaling.getD false || s.useSizeLimits.getD false) = true
  · simp only [buildMaxWOH, hflag, if_true, hw, hh, and_self]
    split_ifs
    · simpa using max_le_max h1 h2
    · simp
  · have hflag' : (s.useScaling.getD false || s.useSizeLimits.getD false) = false := by
      revert hflag
      cases (s.useScaling.getD false || s.useSizeLimits.getD false) <;> simp
    simp [buildMaxWOH, hflag']

theorem c7_witness :
    ((0 : ℚ) < 4000 ∧ (0 : ℚ) < 3000) ∧
    (targetDims settingsD 4000 3000).1 ≤ 4000 ∧
    (targetDims settingsD 4000 3000).2 ≤ 3000 ∧
    (buildMaxWOH settingsD (some (4000, 3000))).getD (max 4000 3000) ≤ max 4000 3000 :=
  ⟨⟨by norm_num, by norm_num⟩,
    c7_dims_monotone settingsD 4000 3000 (by norm_num) (by norm_num)⟩

/-- C8: whenever the size-limit clamp applies, the width check is evaluated
strictly before the height check, the height check operating on the values
updated by the width check: the computed target equals the
width-first-then-height clamp of the scaled dimensions. -/
theorem c8_width_before_height (s : CompressionSettings) (ow oh : ℚ)
    (h1 : s.useSizeLimits.getD false = true)
    (h2 : truthy s.maxWidth = true) (h3 : truthy s.maxHeight = true) :
    targetDims s ow oh =
      widthFirstClamp (s.maxWidth.getD 0) (s.maxHeight.getD 0) (scaledDims s ow oh) := by
  simp only [targetDims, widthFirstClamp]
  rw [if_pos ⟨h1, h2, h3⟩]

theorem c8_witness :
    (settingsE.useSizeLimits.getD false = true ∧ truthy settingsE.maxWidth = true ∧
      truthy settingsE.maxHeight = true) ∧
    targetDims settingsE 4000 3000 =
      widthFirstClamp (settingsE.maxWidth.getD 0) (settingsE.maxHeight.getD 0)
        (scaledDims settingsE 4000 3000) :=
  ⟨⟨rfl, by decide, by decide⟩,
    c8_width_before_height settingsE 4000 3000 rfl (by decide) (by decide)⟩

/-- C10 (amended): formatFileSize(0) is "0 Bytes", formatFileSize(1536) is
"1.5 KB", formatFileSize(1048576) is "1 MB", and for every positive byte
count below 1024^4 the result is bytes / 1024^i rounded to two decimals
with trailing zeros dropped, a space, and the unit at index
i = floor(log(bytes)/log(1024)) of [Bytes, KB, MB, GB], that index being
below 4.  The original claim fails at one TiB and beyond, where the unit
index is 4 and the code renders the out-of-range lookup as "undefined"
(see the counterexample). -/
theorem c10_formatFileSize_amended (b : ℕ) (hb1 : 0 < b) (hb2 : b < 1024 ^ 4) :
    Nat.log 1024 b < 4 ∧
    ((Nat.log 1024 b : ℤ) = ⌊Real.logb 1024 (b : ℝ)⌋) ∧
    formatFileSize b =
      toFixed2Trimmed ((b : ℚ) / 1024 ^ Nat.log 1024 b) ++ " " ++
        ["Bytes", "KB", "MB", "GB"].getD (Nat.log 1024 b) "undefined" ∧
    formatFileSize 0 = "0 Bytes" ∧
    formatFileSize 1536 = "1.5 KB" ∧
    formatFileSize 1048576 = "1 MB" := by
  refine ⟨Nat.log_lt_of_lt_pow hb1.ne' hb2, ?_, ?_, rfl, ?_, ?_⟩
  · exact ((Real.floor_logb_natCast (by positivity)).trans (Int.log_natCast 1024 b)).symm
  · simp [formatFileSize, hb1.ne']
  · have hlog : Nat.log 1024 1536 = 1 :=
      Nat.log_eq_of_pow_le_of_lt_pow (by norm_num) (by norm_num)
    have hn : ⌊((1536 : ℕ) : ℚ) / 1024 ^ (1 : ℕ) * 100 + 1/2⌋ = (150 : ℤ) := by
      push_cast
      norm_num
    simp only [formatFileSize, hlog, toFixed2Trimmed, hn]
    rfl
  · have hlog : Nat.log 1024 1048576 = 2 :=
      Nat.log_eq_of_pow_le_of_lt_pow (by norm_num) (by norm_num)
    have hn : ⌊((1048576 : ℕ) : ℚ) / 1024 ^ (2 : ℕ) * 100 + 1/2⌋ = (100 : ℤ) := by
      push_cast
      norm_num
    simp only [formatFileSize, hlog, toFixed2Trimmed, hn]
    rfl

/-- C10 counterexample: at exactly one TiB the unit index computed by the
code is 4, past the end of the four-element unit list, so the function
returns "1 undefined" rather than a value with a unit of the claimed
sequence. -/
theorem c10_counterexample :
    formatFileSize 1099511627776 = "1 undefined" ∧
    ¬ ("undefined" ∈ ["Bytes", "KB", "MB", "GB"]) := by
  constructor
  · have hlog : Nat.log 1024 1099511627776 = 4 :=
      Nat.log_eq_of_pow_le_of_lt_pow (by norm_num) (by norm_num)
    have hn : ⌊((1099511627776 : ℕ) : ℚ) / 1024 ^ (4 : ℕ) * 100 + 1/2⌋ = (100 : ℤ) := by
      push_cast
      norm_num
    simp only [formatFileSize, hlog, toFixed2Trimmed, hn]
    rfl
  · decide

theorem c10_witness :
    (0 < 5242880 ∧ 5242880 < 1024 ^ 4) ∧
    (Nat.log 1024 5242880 < 4 ∧
    ((Nat.log 1024 5242880 : ℤ) = ⌊Real.logb 1024 ((5242880 : ℕ) : ℝ)⌋) ∧
    formatFileSize 5242880 =
      toFixed2Trimmed (((5242880 : ℕ) : ℚ) / 1024 ^ Nat.log 1024 5242880) ++ " " ++
        ["Bytes", "KB", "MB", "GB"].getD (Nat.log 1024 5242880) "undefined" ∧
    formatFileSize 0 = "0 Bytes" ∧
    formatFileSize 1536 = "1.5 KB" ∧
    formatFileSize 1048576 = "1 MB") :=
  ⟨⟨by norm_num, by norm_num⟩,
    c10_formatFileSize_amended 5242880 (by norm_num) (by norm_num)⟩
